import Mathlib

set_option maxRecDepth 8000

/-!
# Verification of the steamapps-backup tool (`src/main.py`)

A shallow embedding of the incremental Steam-library backup script.  Python
strings are modelled as Lean `String`/`List Char`; the file system, the
directory listing and the external WinRAR invocation are modelled as explicit
parameters (`Env`, `World`, `MigFS`); Python exceptions become `Except`/
`Option` results.  Every definition is translated from the source; the
correspondence of each definition to a source function is noted in its
doc comment.
-/

namespace SteamBackup

/-! ## Characters that are awkward to write literally -/

/-- The double-quote character `"`. -/
def qchar : Char := Char.ofNat 34

/-- The backslash character. -/
def bslash : Char := Char.ofNat 92

/-- Opening curly brace. -/
def braceO : Char := Char.ofNat 123

/-- Closing curly brace. -/
def braceC : Char := Char.ofNat 125

/-! ## Python `str.split` (used by `_parse_acf_content`)

`content.split(pattern)` splits at each non-overlapping, leftmost-first
occurrence of `pattern`.  `content.split(p)[1]` (the code's idiom) is hence
the text strictly between the first and second occurrence of `p`, or the
text after the first occurrence when it occurs only once; it raises
`IndexError` when `p` does not occur at all. -/

/-- Returns `some rest` when the first list is a prefix of the second, with `rest`
the remainder. -/
def stripPrefixL : List Char → List Char → Option (List Char)
  | [], rest => some rest
  | _ :: _, [] => none
  | p :: ps, c :: cs => if c = p then stripPrefixL ps cs else none

/-- Prepend a character to the first piece of a split result. -/
def consHead (c : Char) : List (List Char) → List (List Char)
  | [] => [[c]]
  | h :: t => (c :: h) :: t

/-- Fueled worker for Python `str.split` with a non-empty separator.  The
fuel only serves the termination checker; `fuel = s.length` always
suffices because every step consumes at least one character. -/
def pysplitGo (sep : List Char) : Nat → List Char → List (List Char)
  | _, [] => [[]]
  | 0, s => [s]
  | fuel + 1, c :: cs =>
    match stripPrefixL sep (c :: cs) with
    | some rest => [] :: pysplitGo sep fuel rest
    | none => consHead c (pysplitGo sep fuel cs)

/-- Python `s.split(sep)` for a non-empty separator `sep`. -/
def pysplitL (sep s : List Char) : List (List Char) :=
  pysplitGo sep s.length s

/-- Models `content.split(pattern)[1].split('"')[0]` with the two `IndexError`s of
the source mapped to `none`: the common field-extraction idiom of
`_parse_acf_content`.  (`split('"')[0]` always exists, so only the first
index can fail.) -/
def extractField (content pat : String) : Option String :=
  match pysplitL pat.data content.data with
  | _ :: x :: _ => some (String.mk (List.headD (pysplitL [qchar] x) []))
  | _ => none

/-! ## Python `int()` (used by `backup_app` on `lastupdated`)

Modelled for ASCII strings: optional surrounding whitespace, an optional
single sign, then at least one decimal digit, with single underscores
permitted between digits.  (Python additionally accepts non-ASCII decimal
digits, which do not occur in this data.) -/

/-- Python `str.strip()` whitespace characters (ASCII). -/
def isPyWs (c : Char) : Bool :=
  c = ' ' || c = '\t' || c = '\n' || c = '\r' || c = Char.ofNat 11 || c = Char.ofNat 12

/-- Drop leading whitespace. -/
def dropWsL : List Char → List Char
  | [] => []
  | c :: rest => if isPyWs c then dropWsL rest else c :: rest

/-- Strip whitespace from both ends. -/
def stripWsL (s : List Char) : List Char :=
  (dropWsL (dropWsL s).reverse).reverse

/-- Numeric value of a decimal digit character. -/
def digitVal (c : Char) : Nat := c.toNat - 48

/-- Digits after the first one; a single underscore may separate digits. -/
def digitsGo : Nat → List Char → Option Nat
  | acc, [] => some acc
  | acc, '_' :: c :: rest =>
    if c.isDigit then digitsGo (acc * 10 + digitVal c) rest else none
  | _, '_' :: [] => none
  | acc, c :: rest =>
    if c.isDigit then digitsGo (acc * 10 + digitVal c) rest else none

/-- A digit sequence must start with a digit (not an underscore). -/
def digitsStart : List Char → Option Nat
  | [] => none
  | c :: rest => if c.isDigit then digitsGo (digitVal c) rest else none

/-- Python `int(s)`; `none` models the `ValueError` raised on a string that
is not a decimal integer literal. -/
def pyInt (s : String) : Option Int :=
  match stripWsL s.data with
  | '+' :: rest => (digitsStart rest).map (fun n => (n : Int))
  | '-' :: rest => (digitsStart rest).map (fun n => -(n : Int))
  | rest => (digitsStart rest).map (fun n => (n : Int))

/-! ## Modelling `datetime.fromtimestamp(..).strftime('%y%m%d')`

Civil-calendar conversion of an epoch timestamp, modelled at UTC (the
source uses the machine-local timezone; the specification's expected
values are the UTC ones). -/

/-- Days since 1970-01-01 to a proleptic-Gregorian `(year, month, day)`. -/
def civilFromDays (z0 : Int) : Int × Int × Int :=
  let z := z0 + 719468
  let era := Int.ediv z 146097
  let doe := z - era * 146097
  let yoe := Int.ediv (doe - Int.ediv doe 1460 + Int.ediv doe 36524 - Int.ediv doe 146096) 365
  let y := yoe + era * 400
  let doy := doe - (365 * yoe + Int.ediv yoe 4 - Int.ediv yoe 100)
  let mp := Int.ediv (5 * doy + 2) 153
  let d := doy - Int.ediv (153 * mp + 2) 5 + 1
  let m := mp + (if mp < 10 then 3 else -9)
  (y + (if m ≤ 2 then 1 else 0), m, d)

/-- Zero-padded two-digit rendering. -/
def pad2 (n : Nat) : String := if n < 10 then "0" ++ toString n else toString n

/-- Models `datetime.fromtimestamp(ts).strftime('%y%m%d')` at UTC. -/
def fmtYYMMDD (ts : Int) : String :=
  let days := Int.ediv ts 86400
  let ymd := civilFromDays days
  pad2 (Int.toNat (Int.emod ymd.1 100)) ++ pad2 ymd.2.1.toNat ++ pad2 ymd.2.2.toNat

/-! ## The manifest parser (`_parse_acf_content`) -/

/-- The parsed manifest record (the dict returned by `_parse_acf_content`). -/
structure AcfData where
  appid : String
  installdir : String
  buildid : String
  lastupdated : String
  manifest : String
deriving DecidableEq

/-- Field label pattern for `appid`. -/
def appidPat : String := "\"appid\"\t\t\""

/-- Field label pattern for `installdir`. -/
def installdirPat : String := "\"installdir\"\t\t\""

/-- Field label pattern for `buildid`. -/
def buildidPat : String := "\"buildid\"\t\t\""

/-- Field label pattern for `lastupdated`. -/
def lastupdatedPat : String := "\"lastupdated\"\t\t\""

/-- The `InstalledDepots` sub-section marker. -/
def depotsMark : String := "\"InstalledDepots\""

/-- Field label pattern for the nested `manifest` field. -/
def manifestPat : String := "\"manifest\"\t\t\""

/-- Models `_parse_acf_content`: the four scalar fields are extracted in the
source's dict order (`appid`, `installdir`, `buildid`, `lastupdated`), each
missing label raising `ValueError("Missing <key> field in ACF file")`; the
nested `manifest` is read from `content.split('"InstalledDepots"')[1]`,
i.e. from the text between the first marker occurrence and the next one
(or the end of the text); either `IndexError` there is reported as a
missing manifest. -/
def parseAcfContent (content : String) : Except String AcfData :=
  match extractField content appidPat with
  | none => Except.error "Missing appid field in ACF file"
  | some appid =>
    match extractField content installdirPat with
    | none => Except.error "Missing installdir field in ACF file"
    | some installdir =>
      match extractField content buildidPat with
      | none => Except.error "Missing buildid field in ACF file"
      | some buildid =>
        match extractField content lastupdatedPat with
        | none => Except.error "Missing lastupdated field in ACF file"
        | some lastupdated =>
          match pysplitL depotsMark.data content.data with
          | _ :: seg :: _ =>
            match pysplitL manifestPat.data seg with
            | _ :: m :: _ =>
              Except.ok ⟨appid, installdir, buildid, lastupdated,
                String.mk (List.headD (pysplitL [qchar] m) [])⟩
            | _ => Except.error "Missing manifest in InstalledDepots section"
          | _ => Except.error "Missing manifest in InstalledDepots section"

/-! ## The state store (`self.backup_data` / `backup.json`)

The structured encoding maps an appid to the three string fields written by
`backup_app` and `_convert_legacy_csv`.  A Python dict is modelled as an
insertion-ordered association list: an update of an existing key replaces
its value in place, a new key is appended. -/

/-- One stored fingerprint record: `{'buildid': .., 'lastupdated': ..,
'manifest': ..}`. -/
structure BRecord where
  buildid : String
  lastupdated : String
  manifest : String
deriving DecidableEq

/-- The persisted mapping appid → fingerprint record. -/
abbrev Store := List (String × BRecord)

/-- Models `self.backup_data.get(appid)`. -/
def getS : Store → String → Option BRecord
  | [], _ => none
  | (k, v) :: rest, a => if k = a then some v else getS rest a

/-- Models `self.backup_data[appid] = record` (Python dict update: existing key
keeps its position, new key is appended). -/
def putS : Store → String → BRecord → Store
  | [], a, v => [(a, v)]
  | (k, w) :: rest, a, v => if k = a then (a, v) :: rest else (k, w) :: putS rest a v

/-- The fingerprint record that `backup_app` stores for a parsed manifest. -/
def fpOf (d : AcfData) : BRecord := ⟨d.buildid, d.lastupdated, d.manifest⟩

/-- Models `_is_backup_current`: `False` when the store has no entry for the
appid, otherwise the conjunction of the three exact string comparisons.
(The source tests `not existing`; under the structured data model an entry
is a three-field dict and hence always truthy, so the test is exactly the
absence test.) -/
def isBackupCurrent (store : Store) (d : AcfData) : Bool :=
  match getS store d.appid with
  | none => false
  | some e =>
    e.buildid == d.buildid && e.lastupdated == d.lastupdated && e.manifest == d.manifest

/-! ## Legacy CSV migration (`_convert_legacy_csv`)

The `csv.reader` collaborator (Python standard library, out of scope) is
modelled by its output: the list of rows, each a list of field strings.
The relevant file-system state is the legacy `backup.csv` (`none` when
absent or already renamed), the renamed `backup.csv.old`, and the
structured `backup.json` (as the store it encodes). -/

/-- File-system state relevant to migration. -/
structure MigFS where
  csv : Option (List (List String))
  csvOld : Option (List (List String))
  json : Option Store
deriving DecidableEq

/-- The row loop of `_convert_legacy_csv`: each row is unpacked as
`appid, buildid, lastupdated, manifest = row`, which raises (aborting the
whole conversion, modelled as `none`) unless the row has exactly four
fields. -/
def convertRows : List (List String) → Store → Option Store
  | [], acc => some acc
  | row :: rest, acc =>
    match row with
    | [appid, buildid, lastupdated, manifest] =>
      convertRows rest (putS acc appid ⟨buildid, lastupdated, manifest⟩)
    | _ => none

/-- Models `_convert_legacy_csv`: no-op when `backup.csv` is absent; otherwise all
rows are parsed first, and only then is `backup.json` written and the CSV
renamed to `backup.csv.old`.  Any row failure is caught by the enclosing
`try`, leaving the file system untouched (the JSON file is opened for
writing only after the row loop has finished). -/
def convertLegacyCsvFS (fs : MigFS) : MigFS :=
  match fs.csv with
  | none => fs
  | some rows =>
    match convertRows rows [] with
    | some st => ⟨none, some rows, some st⟩
    | none => fs

/-- The store-level content of `_read_backup_json`: an absent file loads as
the empty store. -/
def loadStore : Option Store → Store
  | none => []
  | some s => s

/-! ## The orchestrator (`backup_app`, `_process_acf_file`, `run_backup`,
`main`)

External collaborators are explicit parameters: `dirExists` is the
file-system check for the install directory, `archiverOk` is the exit
status of the WinRAR subprocess for a given `(destination, source)` pair.
Each processing step returns the updated store (the in-memory dict, which
is persisted in full right after every update), the item's terminal
outcome, and the list of archiver invocations it performed. -/

/-- The environment a run executes in. -/
structure Env where
  steamapps : String
  backupDir : String
  dirExists : String → Bool
  archiverOk : String → String → Bool

/-- Terminal state of one discovered manifest. -/
inductive Outcome where
  | skipped
  | backedUp
  | failed (msg : String)
deriving DecidableEq

/-- Recogniser for the `backedUp` outcome. -/
def Outcome.isBackedUp : Outcome → Bool
  | .backedUp => true
  | _ => false

/-- One archiver invocation `(destination archive path, source directory)`. -/
structure Invocation where
  dest : String
  src : String
deriving DecidableEq

/-- Models `self.steam_library_steamapps / "common" / installdir`. -/
def appDir (env : Env) (installdir : String) : String :=
  env.steamapps ++ "/common/" ++ installdir

/-- The archive file name
`f"[{appid}][{buildid}][{lastupdated_date}][{manifest}]{installdir}.rar"`. -/
def backupFilename (d : AcfData) (date : String) : String :=
  "[" ++ d.appid ++ "][" ++ d.buildid ++ "][" ++ date ++ "][" ++ d.manifest ++ "]"
    ++ d.installdir ++ ".rar"

/-- Models `self.backup_dir / backup_filename`. -/
def destOf (env : Env) (d : AcfData) (ts : Int) : String :=
  env.backupDir ++ "/" ++ backupFilename d (fmtYYMMDD ts)

/-- Models `backup_app`: missing install directory returns early (no archiver
call, no store update); then `int(lastupdated)` may raise (propagating out
before any archiver call); then `_compress_files` runs WinRAR — on a
non-zero exit the raised `CalledProcessError` propagates before the store
assignment and `_write_backup_json`, so the store is updated and persisted
only after a successful compression. -/
def backupApp (env : Env) (store : Store) (d : AcfData) :
    Store × Outcome × List Invocation :=
  if env.dirExists (appDir env d.installdir) then
    match pyInt d.lastupdated with
    | some ts =>
      if env.archiverOk (destOf env d ts) (appDir env d.installdir) then
        (putS store d.appid (fpOf d), Outcome.backedUp,
          [⟨destOf env d ts, appDir env d.installdir⟩])
      else
        (store, Outcome.failed "Compression failed",
          [⟨destOf env d ts, appDir env d.installdir⟩])
    | none => (store, Outcome.failed "invalid literal for int() with base 10", [])
  else (store, Outcome.failed "Install directory not found", [])

/-- Models `_process_acf_file`: parse, then the currency check, then
`backup_app`; every exception is caught at this boundary and logged, so a
per-item failure never escapes (modelled by the total `Outcome` result). -/
def processAcfFile (env : Env) (store : Store) (content : String) :
    Store × Outcome × List Invocation :=
  match parseAcfContent content with
  | Except.error e => (store, Outcome.failed e, [])
  | Except.ok d =>
    if isBackupCurrent store d then (store, Outcome.skipped, [])
    else backupApp env store d

/-- Models `run_backup`: process the discovered manifest contents in order,
threading the store. -/
def runBackup (env : Env) (store : Store) (files : List String) :
    Store × List Outcome :=
  match files with
  | [] => (store, [])
  | c :: cs =>
    let r := processAcfFile env store c
    let rest := runBackup env r.1 cs
    (rest.1, r.2.1 :: rest.2)

/-- Process-level state for `main`: the validated startup conditions
(readable configuration, existing steamapps root, existing WinRAR
executable), the state loaded at construction, and the discovered
manifest contents. -/
structure World where
  cfgOk : Bool
  steamLibraryExists : Bool
  winrarExists : Bool
  env : Env
  initStore : Store
  acfFiles : List String

/-- Models `main`: `load_config` errors and the `FileNotFoundError`s of
`_validate_paths` are caught by the top-level handler, which exits with
code 1; otherwise `run_backup` runs to completion (its per-item handler
swallows all item errors) and the process exits 0. -/
def mainRun (w : World) : Nat × List Outcome :=
  if w.cfgOk && w.steamLibraryExists && w.winrarExists then
    (0, (runBackup w.env w.initStore w.acfFiles).2)
  else (1, [])

/-! ## Modelling `json.load` (used by `_read_backup_json`)

A JSON document model and a recursive-descent parser for the grammar
accepted by Python's `json.loads` on text: the JSON standard plus the
`NaN` / `Infinity` / `-Infinity` constants, with strict rejection of
unescaped control characters inside strings.  Numbers keep their lexeme
(their numeric value is never consumed by this program).  The parser is
fueled; the fuel supplied by `jsonParse` is sufficient for every input, so
`none` means exactly that the text is not valid JSON (the
`json.JSONDecodeError` case of the source). -/

/-- A parsed JSON document. -/
inductive Json where
  | null
  | bool (b : Bool)
  | num (lexeme : String)
  | str (s : String)
  | arr (xs : List Json)
  | obj (kvs : List (String × Json))

/-- JSON inter-token whitespace. -/
def jsonWs (c : Char) : Bool :=
  c = ' ' || c = '\t' || c = '\n' || c = '\r'

/-- Skip JSON whitespace. -/
def skipWs : List Char → List Char
  | [] => []
  | c :: rest => if jsonWs c then skipWs rest else c :: rest

/-- Hexadecimal digit value. -/
def hexVal (c : Char) : Option Nat :=
  if c.isDigit then some (c.toNat - 48)
  else if 'a' ≤ c && c ≤ 'f' then some (c.toNat - 87)
  else if 'A' ≤ c && c ≤ 'F' then some (c.toNat - 55)
  else none

/-- Single-character string escapes. -/
def escChar (c : Char) : Option Char :=
  if c = qchar then some qchar
  else if c = bslash then some bslash
  else if c = '/' then some '/'
  else if c = 'b' then some (Char.ofNat 8)
  else if c = 'f' then some (Char.ofNat 12)
  else if c = 'n' then some '\n'
  else if c = 'r' then some '\r'
  else if c = 't' then some '\t'
  else none

/-- Parse the body of a JSON string (after the opening quote), returning
its decoded characters and the input after the closing quote.  Surrogate
pairs are not recombined (the decoded value of such strings is not
consumed by this program). -/
def parseJStr : List Char → Option (List Char × List Char)
  | [] => none
  | c :: rest =>
    if c = qchar then some ([], rest)
    else if c = bslash then
      match rest with
      | [] => none
      | e :: rest2 =>
        if e = 'u' then
          match rest2 with
          | h1 :: h2 :: h3 :: h4 :: rest3 =>
            match hexVal h1, hexVal h2, hexVal h3, hexVal h4 with
            | some a, some b, some c3, some d3 =>
              match parseJStr rest3 with
              | some (s, r) => some (Char.ofNat (a * 4096 + b * 256 + c3 * 16 + d3) :: s, r)
              | none => none
            | _, _, _, _ => none
          | _ => none
        else
          match escChar e with
          | some ec =>
            match parseJStr rest2 with
            | some (s, r) => some (ec :: s, r)
            | none => none
          | none => none
    else if c.toNat < 32 then none
    else
      match parseJStr rest with
      | some (s, r) => some (c :: s, r)
      | none => none

/-- Take a maximal run of decimal digits. -/
def takeDigits : List Char → List Char × List Char
  | [] => ([], [])
  | c :: rest =>
    if c.isDigit then
      let p := takeDigits rest
      (c :: p.1, p.2)
    else ([], c :: rest)

/-- Parse the integer part of a JSON number: `0`, or a nonzero digit
followed by digits (leading zeros are rejected, as `json.loads` does). -/
def parseIntPart : List Char → Option (List Char × List Char)
  | [] => none
  | c :: rest =>
    if c = '0' then some ([c], rest)
    else if c.isDigit then
      let p := takeDigits rest
      some (c :: p.1, p.2)
    else none

/-- Parse an optional fraction part `.digits`. -/
def parseFracPart : List Char → Option (List Char × List Char)
  | '.' :: rest =>
    let p := takeDigits rest
    if p.1 = [] then none else some ('.' :: p.1, p.2)
  | s => some ([], s)

/-- Parse an optional exponent part `(e|E)(+|-)? digits`. -/
def parseExpPart : List Char → Option (List Char × List Char)
  | c :: rest =>
    if c = 'e' || c = 'E' then
      match rest with
      | c2 :: rest2 =>
        if c2 = '+' || c2 = '-' then
          let p := takeDigits rest2
          if p.1 = [] then none else some (c :: c2 :: p.1, p.2)
        else
          let p := takeDigits rest
          if p.1 = [] then none else some (c :: p.1, p.2)
      | [] => none
    else some ([], c :: rest)
  | [] => some ([], [])

/-- Parse a JSON number starting at the first character (optionally a
minus sign), returning its lexeme. -/
def parseNum (s : List Char) : Option (List Char × List Char) :=
  let sgn : List Char × List Char :=
    match s with
    | '-' :: rest => (['-'], rest)
    | _ => ([], s)
  match parseIntPart sgn.2 with
  | none => none
  | some (ip, r1) =>
    match parseFracPart r1 with
    | none => none
    | some (fp, r2) =>
      match parseExpPart r2 with
      | none => none
      | some (ep, r3) => some (sgn.1 ++ ip ++ fp ++ ep, r3)

/-- Returns `some rest` when the literal word is a prefix of the input. -/
def expectWord : List Char → List Char → Option (List Char) :=
  stripPrefixL

mutual

/-- Parse one JSON value (after skipping leading whitespace). -/
def parseVal : Nat → List Char → Option (Json × List Char)
  | 0, _ => none
  | fuel + 1, s =>
    match skipWs s with
    | [] => none
    | c :: rest =>
      if c = qchar then
        match parseJStr rest with
        | some (cs, r) => some (Json.str (String.mk cs), r)
        | none => none
      else if c = braceO then parseObjBody fuel rest
      else if c = '[' then parseArrBody fuel rest
      else if c = 't' then
        match expectWord "rue".data rest with
        | some r => some (Json.bool true, r)
        | none => none
      else if c = 'f' then
        match expectWord "alse".data rest with
        | some r => some (Json.bool false, r)
        | none => none
      else if c = 'n' then
        match expectWord "ull".data rest with
        | some r => some (Json.null, r)
        | none => none
      else if c = 'N' then
        match expectWord "aN".data rest with
        | some r => some (Json.num "NaN", r)
        | none => none
      else if c = 'I' then
        match expectWord "nfinity".data rest with
        | some r => some (Json.num "Infinity", r)
        | none => none
      else if c = '-' && (match rest with | 'I' :: _ => true | _ => false) then
        match expectWord "Infinity".data rest with
        | some r => some (Json.num "-Infinity", r)
        | none => none
      else
        match parseNum (c :: rest) with
        | some (lex, r) => some (Json.num (String.mk lex), r)
        | none => none

/-- Parse an array body (after the opening bracket). -/
def parseArrBody : Nat → List Char → Option (Json × List Char)
  | 0, _ => none
  | fuel + 1, s =>
    match skipWs s with
    | c :: rest =>
      if c = ']' then some (Json.arr [], rest)
      else
        match parseItems fuel (c :: rest) with
        | some (js, r) => some (Json.arr js, r)
        | none => none
    | [] => none

/-- Parse one-or-more comma-separated array items, consuming the closing
bracket. -/
def parseItems : Nat → List Char → Option (List Json × List Char)
  | 0, _ => none
  | fuel + 1, s =>
    match parseVal fuel s with
    | none => none
    | some (j, r) =>
      match skipWs r with
      | c :: r2 =>
        if c = ',' then
          match parseItems fuel r2 with
          | some (js, r3) => some (j :: js, r3)
          | none => none
        else if c = ']' then some ([j], r2)
        else none
      | [] => none

/-- Parse an object body (after the opening brace). -/
def parseObjBody : Nat → List Char → Option (Json × List Char)
  | 0, _ => none
  | fuel + 1, s =>
    match skipWs s with
    | c :: rest =>
      if c = braceC then some (Json.obj [], rest)
      else
        match parseMembers fuel (c :: rest) with
        | some (kvs, r) => some (Json.obj kvs, r)
        | none => none
    | [] => none

/-- Parse one-or-more `"key": value` members, consuming the closing
brace. -/
def parseMembers : Nat → List Char → Option (List (String × Json) × List Char)
  | 0, _ => none
  | fuel + 1, s =>
    match skipWs s with
    | c :: rest =>
      if c = qchar then
        match parseJStr rest with
        | some (k, r1) =>
          match skipWs r1 with
          | c2 :: r2 =>
            if c2 = ':' then
              match parseVal fuel r2 with
              | some (v, r3) =>
                match skipWs r3 with
                | c3 :: r4 =>
                  if c3 = ',' then
                    match parseMembers fuel r4 with
                    | some (kvs, r5) => some ((String.mk k, v) :: kvs, r5)
                    | none => none
                  else if c3 = braceC then some ([(String.mk k, v)], r4)
                  else none
                | [] => none
              | none => none
            else none
          | [] => none
        | none => none
      else none
    | [] => none

end

/-- Reading after a dict update: the written key sees the new value, every
other key is unaffected. -/
theorem getS_putS (s : Store) (k a : String) (v : BRecord) :
    getS (putS s k v) a = if k = a then some v else getS s a := by
  induction s with
  | nil => by_cases h : k = a <;> simp [putS, getS, h]
  | cons hd t ih =>
    obtain ⟨k0, v0⟩ := hd
    by_cases h1 : k0 = k
    · subst h1
      by_cases h2 : k0 = a <;> simp [putS, getS, h2]
    · by_cases h2 : k0 = a
      · subst h2
        have h3 : ¬ k = k0 := fun h => h1 h.symm
        simp [putS, h1, getS, h3]
      · simp [putS, h1, getS, h2, ih]

/-- After storing exactly the fingerprint of `d` under `d.appid`, `d` is
current. -/
theorem isBackupCurrent_put_self (s : Store) (d : AcfData) :
    isBackupCurrent (putS s d.appid (fpOf d)) d = true := by
  simp [isBackupCurrent, getS_putS, fpOf]

/-- Updating a different key does not change whether `d` is current. -/
theorem isBackupCurrent_put_other (s : Store) (k : String) (v : BRecord)
    (d : AcfData) (h : k ≠ d.appid) :
    isBackupCurrent (putS s k v) d = isBackupCurrent s d := by
  simp [isBackupCurrent, getS_putS, h]

/-! ## Orchestrator step lemmas -/

/-- A processing step either leaves the store unchanged or performs the
single `putS` of the parsed item's fingerprint (the commit after a
successful archiver call). -/
theorem processAcf_shape (env : Env) (s : Store) (c : String) :
    (processAcfFile env s c).1 = s ∨
      ∃ d, parseAcfContent c = Except.ok d ∧
        (processAcfFile env s c).1 = putS s d.appid (fpOf d) := by
  cases hp : parseAcfContent c with
  | error e => left; simp [processAcfFile, hp]
  | ok d =>
    by_cases hc : isBackupCurrent s d = true
    · left; simp [processAcfFile, hp, hc]
    · by_cases hd : env.dirExists (appDir env d.installdir) = true
      · cases hts : pyInt d.lastupdated with
        | none => left; simp [processAcfFile, hp, hc, backupApp, hd, hts]
        | some ts =>
          by_cases ha : env.archiverOk (destOf env d ts) (appDir env d.installdir) = true
          · right
            exact ⟨d, rfl, by simp [processAcfFile, hp, hc, backupApp, hd, hts, ha]⟩
          · left; simp [processAcfFile, hp, hc, backupApp, hd, hts, ha]
      · left; simp [processAcfFile, hp, hc, backupApp, hd]

/-- An item that cannot be backed up from store `s`: its parse fails, or
it is current, or it fails before/at the archiver for reasons that do not
depend on the store. -/
def willNotBackup (env : Env) (s : Store) (c : String) : Prop :=
  ∀ d, parseAcfContent c = Except.ok d →
    isBackupCurrent s d = true
    ∨ env.dirExists (appDir env d.installdir) = false
    ∨ pyInt d.lastupdated = none
    ∨ ∀ ts, pyInt d.lastupdated = some ts →
        env.archiverOk (destOf env d ts) (appDir env d.installdir) = false

/-- Processing such an item leaves the store unchanged and does not yield
`backedUp`. -/
theorem willNotBackup_step (env : Env) (s : Store) (c : String)
    (h : willNotBackup env s c) :
    (processAcfFile env s c).1 = s ∧ (processAcfFile env s c).2.1 ≠ Outcome.backedUp := by
  cases hp : parseAcfContent c with
  | error e => simp [processAcfFile, hp]
  | ok d =>
    by_cases hcur : isBackupCurrent s d = true
    · simp [processAcfFile, hp, hcur]
    · rcases h d hp with hc | hd | hts | harc
      · exact absurd hc hcur
      · simp [processAcfFile, hp, hcur, backupApp, hd]
      · cases hdir : env.dirExists (appDir env d.installdir) with
        | false => simp [processAcfFile, hp, hcur, backupApp, hdir]
        | true => simp [processAcfFile, hp, hcur, backupApp, hdir, hts]
      · cases hdir : env.dirExists (appDir env d.installdir) with
        | false => simp [processAcfFile, hp, hcur, backupApp, hdir]
        | true =>
          cases hts : pyInt d.lastupdated with
          | none => simp [processAcfFile, hp, hcur, backupApp, hdir, hts]
          | some ts =>
            have ha := harc ts hts
            simp [processAcfFile, hp, hcur, backupApp, hdir, hts, ha]

/-- After processing `c` once, re-processing `c` from the resulting store
can no longer back it up. -/
theorem willNotBackup_establish (env : Env) (s : Store) (c : String) :
    willNotBackup env (processAcfFile env s c).1 c := by
  intro d hp
  by_cases hcur : isBackupCurrent s d = true
  · left
    have hstate : (processAcfFile env s c).1 = s := by simp [processAcfFile, hp, hcur]
    rw [hstate]; exact hcur
  · cases hdir : env.dirExists (appDir env d.installdir) with
    | false => exact Or.inr (Or.inl rfl)
    | true =>
      cases hts : pyInt d.lastupdated with
      | none => exact Or.inr (Or.inr (Or.inl rfl))
      | some ts =>
        by_cases ha : env.archiverOk (destOf env d ts) (appDir env d.installdir) = true
        · left
          have hstate : (processAcfFile env s c).1 = putS s d.appid (fpOf d) := by
            simp [processAcfFile, hp, hcur, backupApp, hdir, hts, ha]
          rw [hstate]; exact isBackupCurrent_put_self s d
        · right; right; right
          intro ts' hts'
          have hts'' : ts' = ts := (Option.some.inj hts').symm
          subst hts''
          simpa using ha

/-- Processing another item `c'` whose fingerprint agrees with `c`'s on a
shared appid preserves `willNotBackup` for `c`. -/
theorem willNotBackup_preserve (env : Env) (s : Store) (c c' : String)
    (hpair : ∀ d d', parseAcfContent c = Except.ok d →
      parseAcfContent c' = Except.ok d' → d.appid = d'.appid → fpOf d = fpOf d')
    (h : willNotBackup env s c) :
    willNotBackup env (processAcfFile env s c').1 c := by
  intro d hp
  rcases processAcf_shape env s c' with hsh | ⟨d', hp', hsh⟩
  · rw [hsh]; exact h d hp
  · rcases h d hp with hc | hd | hts | harc
    · left
      rw [hsh]
      by_cases he : d'.appid = d.appid
      · have hfp : fpOf d = fpOf d' := hpair d d' hp hp' he.symm
        rw [he, ← hfp]
        exact isBackupCurrent_put_self s d
      · rw [isBackupCurrent_put_other s _ _ d he]
        exact hc
    · exact Or.inr (Or.inl hd)
    · exact Or.inr (Or.inr (Or.inl hts))
    · exact Or.inr (Or.inr (Or.inr harc))

/-- Property `willNotBackup` for `c` survives a whole run over `files`, provided no
file carries a conflicting fingerprint for `c`'s appid. -/
theorem willNotBackup_run_preserve (env : Env) (c : String) :
    ∀ (files : List String) (s : Store),
      (∀ c' ∈ files, ∀ d d', parseAcfContent c = Except.ok d →
        parseAcfContent c' = Except.ok d' → d.appid = d'.appid → fpOf d = fpOf d') →
      willNotBackup env s c → willNotBackup env (runBackup env s files).1 c := by
  intro files
  induction files with
  | nil => intro s _ h; simpa [runBackup] using h
  | cons c0 cs ih =>
    intro s hpair h
    have h1 : willNotBackup env (processAcfFile env s c0).1 c :=
      willNotBackup_preserve env s c c0 (hpair c0 (by simp)) h
    have h2 := ih (processAcfFile env s c0).1 (fun c' hc' => hpair c' (by simp [hc'])) h1
    simpa [runBackup] using h2

/-- After one full run, no discovered item can be backed up again — as
long as distinct sources never declare the same appid with different
fingerprints. -/
theorem run_establishes (env : Env) :
    ∀ (files : List String) (s : Store),
      (∀ c1 c2, c1 ∈ files → c2 ∈ files → ∀ d1 d2,
        parseAcfContent c1 = Except.ok d1 → parseAcfContent c2 = Except.ok d2 →
        d1.appid = d2.appid → fpOf d1 = fpOf d2) →
      ∀ c ∈ files, willNotBackup env (runBackup env s files).1 c := by
  intro files
  induction files with
  | nil => intro s _ c hc; simp at hc
  | cons c0 cs ih =>
    intro s hconf c hc
    rcases List.mem_cons.mp hc with rfl | hcs
    · have h0 : willNotBackup env (processAcfFile env s c).1 c :=
        willNotBackup_establish env s c
      have h1 := willNotBackup_run_preserve env c cs (processAcfFile env s c).1
        (fun c' hc' => hconf c c' (by simp) (by simp [hc'])) h0
      simpa [runBackup] using h1
    · have h1 := ih (processAcfFile env s c0).1
        (fun c1 c2 h1 h2 => hconf c1 c2 (by simp [h1]) (by simp [h2])) c hcs
      simpa [runBackup] using h1

/-- A run over items none of which can be backed up leaves the store
untouched and produces no `backedUp` outcome. -/
theorem run_noBackup (env : Env) :
    ∀ (files : List String) (s : Store),
      (∀ c ∈ files, willNotBackup env s c) →
      (runBackup env s files).1 = s ∧
        ∀ o ∈ (runBackup env s files).2, o ≠ Outcome.backedUp := by
  intro files
  induction files with
  | nil => intro s _; simp [runBackup]
  | cons c0 cs ih =>
    intro s hall
    have h0 := willNotBackup_step env s c0 (hall c0 (by simp))
    have hrest := ih s (fun c hc => hall c (by simp [hc]))
    constructor
    · simp only [runBackup]
      rw [h0.1]
      exact hrest.1
    · intro o ho
      simp only [runBackup, List.mem_cons] at ho
      rcases ho with rfl | ho
      · exact h0.2
      · rw [h0.1] at ho
        exact hrest.2 o ho

/-! ## Migration lemmas -/

/-- One row without exactly four fields aborts the whole conversion. -/
theorem convertRows_badRow :
    ∀ (rows : List (List String)) (acc : Store) (r : List String),
      r ∈ rows → r.length ≠ 4 → convertRows rows acc = none := by
  intro rows
  induction rows with
  | nil => intro acc r hr _; simp at hr
  | cons r0 rest ih =>
    intro acc r hr hlen
    rcases List.mem_cons.mp hr with rfl | hr'
    · rcases r with _ | ⟨a, _ | ⟨b, _ | ⟨c, _ | ⟨d, _ | ⟨e, t⟩⟩⟩⟩⟩
      · simp [convertRows]
      · simp [convertRows]
      · simp [convertRows]
      · simp [convertRows]
      · exact absurd rfl hlen
      · simp [convertRows]
    · rcases r0 with _ | ⟨a, _ | ⟨b, _ | ⟨c, _ | ⟨d, _ | ⟨e, t⟩⟩⟩⟩⟩
      · simp [convertRows]
      · simp [convertRows]
      · simp [convertRows]
      · simp [convertRows]
      · simpa [convertRows] using ih _ r hr' hlen
      · simp [convertRows]

/-- When every row has exactly four fields, the conversion succeeds. -/
theorem convertRows_some :
    ∀ (rows : List (List String)) (acc : Store),
      (∀ r ∈ rows, r.length = 4) → ∃ st, convertRows rows acc = some st := by
  intro rows
  induction rows with
  | nil => intro acc _; exact ⟨acc, rfl⟩
  | cons r0 rest ih =>
    intro acc hall
    have h0 : r0.length = 4 := hall r0 (by simp)
    rcases r0 with _ | ⟨a, _ | ⟨b, _ | ⟨c, _ | ⟨d, _ | ⟨e, t⟩⟩⟩⟩⟩
    · simp at h0
    · simp at h0
    · simp at h0
    · simp at h0
    · simpa [convertRows] using ih (putS acc a ⟨b, c, d⟩) (fun r hr => hall r (by simp [hr]))
    · simp at h0

/-- A key present in the accumulator is still present in the converted
store. -/
theorem convertRows_preserves :
    ∀ (rows : List (List String)) (acc st : Store) (a : String),
      convertRows rows acc = some st → (∃ v, getS acc a = some v) →
      ∃ v, getS st a = some v := by
  intro rows
  induction rows with
  | nil =>
    intro acc st a h hv
    simp [convertRows] at h
    rw [← h]; exact hv
  | cons r0 rest ih =>
    intro acc st a h hv
    rcases r0 with _ | ⟨x, _ | ⟨y, _ | ⟨z, _ | ⟨w, _ | ⟨u, t⟩⟩⟩⟩⟩
    · simp [convertRows] at h
    · simp [convertRows] at h
    · simp [convertRows] at h
    · simp [convertRows] at h
    · simp only [convertRows] at h
      apply ih _ st a h
      obtain ⟨v, hv⟩ := hv
      by_cases hx : x = a
      · exact ⟨⟨y, z, w⟩, by rw [getS_putS]; simp [hx]⟩
      · exact ⟨v, by rw [getS_putS]; simp [hx]; exact hv⟩
    · simp [convertRows] at h

/-- Every four-field row's appid ends up present in the converted store. -/
theorem convertRows_covers :
    ∀ (rows : List (List String)) (acc st : Store) (a b t m : String),
      convertRows rows acc = some st → [a, b, t, m] ∈ rows →
      ∃ v, getS st a = some v := by
  intro rows
  induction rows with
  | nil => intro acc st a b t m _ hmem; simp at hmem
  | cons r0 rest ih =>
    intro acc st a b t m h hmem
    rcases List.mem_cons.mp hmem with heq | hmem'
    · rw [← heq] at h
      simp only [convertRows] at h
      apply convertRows_preserves rest _ st a h
      exact ⟨⟨b, t, m⟩, by rw [getS_putS]; simp⟩
    · rcases r0 with _ | ⟨x, _ | ⟨y, _ | ⟨z, _ | ⟨w, _ | ⟨u, tl⟩⟩⟩⟩⟩
      · simp [convertRows] at h
      · simp [convertRows] at h
      · simp [convertRows] at h
      · simp [convertRows] at h
      · simp only [convertRows] at h
        exact ih _ st a b t m h hmem'
      · simp [convertRows] at h

/-- A key that heads no row reads the same in the converted store as in
the accumulator. -/
theorem convertRows_absent :
    ∀ (rows : List (List String)) (acc st : Store) (a : String),
      convertRows rows acc = some st →
      (∀ r ∈ rows, List.headD r "" ≠ a) →
      getS st a = getS acc a := by
  intro rows
  induction rows with
  | nil =>
    intro acc st a h _
    simp [convertRows] at h
    rw [h]
  | cons r0 rest ih =>
    intro acc st a h hhd
    rcases r0 with _ | ⟨x, _ | ⟨y, _ | ⟨z, _ | ⟨w, _ | ⟨u, tl⟩⟩⟩⟩⟩
    · simp [convertRows] at h
    · simp [convertRows] at h
    · simp [convertRows] at h
    · simp [convertRows] at h
    · simp only [convertRows] at h
      have hx : x ≠ a := by simpa using hhd [x, y, z, w] (by simp)
      rw [ih _ st a h (fun r hr => hhd r (by simp [hr]))]
      rw [getS_putS]
      simp [hx]
    · simp [convertRows] at h

/-! ## Concrete fixtures for witnesses and counterexamples -/

/-- Environment: every install directory exists, the archiver always
succeeds. -/
def envAll : Env := ⟨"S", "B", fun _ => true, fun _ _ => true⟩

/-- Environment: every install directory exists, the archiver always
fails (non-zero exit). -/
def envNoArch : Env := ⟨"S", "B", fun _ => true, fun _ _ => false⟩

/-- Manifest: appid 1, installdir D, buildid 2, lastupdated 0, manifest 9. -/
def acfA : String :=
  "\"appid\"\t\t\"1\"\n\"installdir\"\t\t\"D\"\n\"buildid\"\t\t\"2\"\n\"lastupdated\"\t\t\"0\"\n\"InstalledDepots\"\n\"manifest\"\t\t\"9\"\n"

/-- Same appid as `acfA`, different buildid. -/
def acfB : String :=
  "\"appid\"\t\t\"1\"\n\"installdir\"\t\t\"D\"\n\"buildid\"\t\t\"3\"\n\"lastupdated\"\t\t\"0\"\n\"InstalledDepots\"\n\"manifest\"\t\t\"9\"\n"

/-- The specification's concrete scenario manifest (appid 480). -/
def acf480 : String :=
  "\"appid\"\t\t\"480\"\n\"installdir\"\t\t\"Spacewar\"\n\"buildid\"\t\t\"100\"\n\"lastupdated\"\t\t\"1700000000\"\n\"InstalledDepots\"\n\"441\"\n\"manifest\"\t\t\"555\"\n"

/-- Manifest whose lastupdated value is not an integer literal. -/
def acfBadTs : String :=
  "\"appid\"\t\t\"7\"\n\"installdir\"\t\t\"G\"\n\"buildid\"\t\t\"1\"\n\"lastupdated\"\t\t\"notanumber\"\n\"InstalledDepots\"\n\"manifest\"\t\t\"5\"\n"

/-- Manifest with two `InstalledDepots` sub-sections; the manifest field
appears only after the second marker. -/
def acfTwoDepots : String :=
  "\"appid\"\t\t\"1\"\n\"installdir\"\t\t\"D\"\n\"buildid\"\t\t\"2\"\n\"lastupdated\"\t\t\"3\"\n\"InstalledDepots\"\nfiller\n\"InstalledDepots\"\n\"manifest\"\t\t\"999\"\n"

/-- Migration state: legacy CSV with one valid and one malformed row, no
structured store yet. -/
def fsBad : MigFS := ⟨some [["1", "b", "t", "m"], ["bad"]], none, none⟩

/-- Migration state: legacy CSV with one valid row, no structured store
yet. -/
def fsGood : MigFS := ⟨some [["1", "b", "t", "m"]], none, none⟩

/-- Migration state: legacy CSV (appid 2) alongside an already-populated
structured store (appid 1). -/
def fsBoth : MigFS := ⟨some [["2", "b", "t", "m"]], none, some [("1", ⟨"x", "y", "z"⟩)]⟩

/-! ## The claims -/

/-- **C1.** Legacy migration is all-or-nothing.  With the legacy CSV
present: if some row does not have exactly the four ordered fields, the
conversion changes nothing — the structured store is not written, the CSV
is neither renamed nor removed — and, when no structured store pre-exists,
the subsequent load yields the empty state (the run proceeds as if no
prior state existed).  If every row has exactly four fields, the
conversion writes the converted store (every row's appid present in it),
renames the CSV to `backup.csv.old`, and running migration again is a
no-op (it never re-triggers). -/
theorem convertLegacyCsv_allOrNothing (fs : MigFS) (rows : List (List String))
    (hcsv : fs.csv = some rows) :
    ((∃ r ∈ rows, r.length ≠ 4) →
      convertLegacyCsvFS fs = fs ∧
        (fs.json = none → loadStore (convertLegacyCsvFS fs).json = [])) ∧
    ((∀ r ∈ rows, r.length = 4) →
      ∃ st, convertRows rows [] = some st ∧
        convertLegacyCsvFS fs = ⟨none, some rows, some st⟩ ∧
        convertLegacyCsvFS (convertLegacyCsvFS fs) = convertLegacyCsvFS fs ∧
        ∀ a b t m, [a, b, t, m] ∈ rows → ∃ v, getS st a = some v) := by
  constructor
  · rintro ⟨r, hr, hlen⟩
    have hnone := convertRows_badRow rows [] r hr hlen
    have heq : convertLegacyCsvFS fs = fs := by
      simp [convertLegacyCsvFS, hcsv, hnone]
    refine ⟨heq, fun hj => ?_⟩
    rw [heq, hj]
    rfl
  · intro hall
    obtain ⟨st, hst⟩ := convertRows_some rows [] hall
    have heq : convertLegacyCsvFS fs = ⟨none, some rows, some st⟩ := by
      simp [convertLegacyCsvFS, hcsv, hst]
    refine ⟨st, hst, heq, ?_, ?_⟩
    · rw [heq]; rfl
    · intro a b t m hmem
      exact convertRows_covers rows [] st a b t m hst hmem

/-- Witness for C1 at concrete states: the abort branch on `fsBad` (whose
second row has one field) and the success branch on `fsGood`. -/
theorem convertLegacyCsv_allOrNothing_witness :
    (convertLegacyCsvFS fsBad = fsBad ∧
      loadStore (convertLegacyCsvFS fsBad).json = []) ∧
    (∃ st, convertRows [["1", "b", "t", "m"]] [] = some st ∧
      convertLegacyCsvFS fsGood = ⟨none, some [["1", "b", "t", "m"]], some st⟩ ∧
      convertLegacyCsvFS (convertLegacyCsvFS fsGood) = convertLegacyCsvFS fsGood ∧
      ∀ a b t m, [a, b, t, m] ∈ [["1", "b", "t", "m"]] → ∃ v, getS st a = some v) := by
  have h1 := (convertLegacyCsv_allOrNothing fsBad [["1", "b", "t", "m"], ["bad"]] rfl).1
    ⟨["bad"], by simp, by simp⟩
  have h2 := (convertLegacyCsv_allOrNothing fsGood [["1", "b", "t", "m"]] rfl).2
    (by intro r hr; simp at hr; rw [hr]; rfl)
  exact ⟨⟨h1.1, h1.2 rfl⟩, h2⟩

/-- **C2.** No false commit: when the archiver invocation for an item
fails (non-zero exit), the store is not updated and not rewritten for it —
the item ends `Failed` (with exactly the one failed invocation recorded)
and is still detected as changed afterwards, so the next run retries it. -/
theorem compressFailure_noCommit (env : Env) (store : Store) (c : String)
    (d : AcfData) (ts : Int)
    (hp : parseAcfContent c = Except.ok d)
    (hcur : isBackupCurrent store d = false)
    (hdir : env.dirExists (appDir env d.installdir) = true)
    (hts : pyInt d.lastupdated = some ts)
    (harc : env.archiverOk (destOf env d ts) (appDir env d.installdir) = false) :
    processAcfFile env store c =
      (store, Outcome.failed "Compression failed",
        [⟨destOf env d ts, appDir env d.installdir⟩]) ∧
      isBackupCurrent (processAcfFile env store c).1 d = false := by
  have h1 : processAcfFile env store c =
      (store, Outcome.failed "Compression failed",
        [⟨destOf env d ts, appDir env d.installdir⟩]) := by
    simp [processAcfFile, hp, hcur, backupApp, hdir, hts, harc]
  refine ⟨h1, ?_⟩
  rw [h1]
  exact hcur

/-- Witness for C2: a fresh item in an environment whose archiver always
exits non-zero. -/
theorem compressFailure_noCommit_witness :
    processAcfFile envNoArch [] acfA =
      ([], Outcome.failed "Compression failed",
        [⟨destOf envNoArch ⟨"1", "D", "2", "0", "9"⟩ 0,
          appDir envNoArch "D"⟩]) ∧
      isBackupCurrent (processAcfFile envNoArch [] acfA).1 ⟨"1", "D", "2", "0", "9"⟩ = false :=
  compressFailure_noCommit envNoArch [] acfA ⟨"1", "D", "2", "0", "9"⟩ 0
    rfl rfl rfl rfl rfl

/-- **C3.** The change detector is pure (a Lean function of the store and
the fresh record) and: absent entry → `false`; present entry → `true` iff
all three stored fields equal the fresh fields exactly. -/
theorem isBackupCurrent_spec (store : Store) (d : AcfData) :
    (getS store d.appid = none → isBackupCurrent store d = false) ∧
      ∀ e, getS store d.appid = some e →
        (isBackupCurrent store d = true ↔
          e.buildid = d.buildid ∧ e.lastupdated = d.lastupdated ∧
            e.manifest = d.manifest) := by
  constructor
  · intro h; simp [isBackupCurrent, h]
  · intro e h
    simp [isBackupCurrent, h, Bool.and_eq_true, beq_iff_eq, and_assoc]

/-- Witness for C3: an empty store is never current; a store holding
exactly the fresh fingerprint is current. -/
theorem isBackupCurrent_spec_witness :
    isBackupCurrent [] ⟨"480", "Spacewar", "100", "1700000000", "555"⟩ = false ∧
      (isBackupCurrent [("480", ⟨"100", "1700000000", "555"⟩)]
          ⟨"480", "Spacewar", "100", "1700000000", "555"⟩ = true ↔
        ("100" : String) = "100" ∧ ("1700000000" : String) = "1700000000" ∧
          ("555" : String) = "555") :=
  ⟨(isBackupCurrent_spec [] ⟨"480", "Spacewar", "100", "1700000000", "555"⟩).1 rfl,
    (isBackupCurrent_spec [("480", ⟨"100", "1700000000", "555"⟩)]
      ⟨"480", "Spacewar", "100", "1700000000", "555"⟩).2
      ⟨"100", "1700000000", "555"⟩ rfl⟩

/-- **C4.** Only the first `InstalledDepots` sub-section is consulted: in
a manifest text with at least two `InstalledDepots` markers (so the
sub-section slice `content.split('"InstalledDepots"')[1]` is the text
between the first and second marker), if that first slice contains no
manifest field then parsing fails with the hard manifest parse error —
regardless of what any later sub-section or later part of the text
contains.  The four scalar-field hypotheses put the parse past the scalar
stage. -/
theorem parseAcf_firstDepotsSection (content : String) (v1 v2 v3 v4 : String)
    (h1 : extractField content appidPat = some v1)
    (h2 : extractField content installdirPat = some v2)
    (h3 : extractField content buildidPat = some v3)
    (h4 : extractField content lastupdatedPat = some v4)
    (hmulti : 3 ≤ (pysplitL depotsMark.data content.data).length)
    (hnomani : (pysplitL manifestPat.data
      ((pysplitL depotsMark.data content.data).getD 1 [])).length = 1) :
    parseAcfContent content =
      Except.error "Missing manifest in InstalledDepots section" := by
  rcases hsp : pysplitL depotsMark.data content.data with _ | ⟨s0, _ | ⟨s1, rest⟩⟩
  · rw [hsp] at hmulti; simp at hmulti
  · rw [hsp] at hmulti; simp at hmulti
  · rw [hsp] at hnomani
    simp only [List.getD, List.get?, Option.getD] at hnomani
    rcases hm : pysplitL manifestPat.data s1 with _ | ⟨m0, _ | ⟨m1, mrest⟩⟩
    · rw [hm] at hnomani; simp at hnomani
    · simp [parseAcfContent, h1, h2, h3, h4, hsp, hm]
    · rw [hm] at hnomani; simp at hnomani

/-- Witness for C4: `acfTwoDepots` has two `InstalledDepots` markers, no
manifest field before the second marker, and a manifest field after it —
and the parse fails. -/
theorem parseAcf_firstDepotsSection_witness :
    3 ≤ (pysplitL depotsMark.data acfTwoDepots.data).length ∧
      2 ≤ (pysplitL manifestPat.data
        ((pysplitL depotsMark.data acfTwoDepots.data).getD 2 [])).length ∧
      parseAcfContent acfTwoDepots =
        Except.error "Missing manifest in InstalledDepots section" :=
  ⟨by decide, by decide,
    parseAcf_firstDepotsSection acfTwoDepots "1" "D" "2" "3" rfl rfl rfl rfl
      (by decide) (by decide)⟩

/-- **C5, counterexample.** With both a legacy CSV (appid 2) and a
populated structured store (appid 1) present, the structured store's entry
for appid 1 is present before migration and gone after it — migration does
lose data in this starting state. -/
theorem migration_dataLoss_cex :
    getS (loadStore fsBoth.json) "1" = some ⟨"x", "y", "z"⟩ ∧
      getS (loadStore (convertLegacyCsvFS fsBoth).json) "1" = none := by
  exact ⟨rfl, rfl⟩

/-- **C5 (amended).** Migration overwrites rather than merges: when the
legacy CSV (all rows valid) is migrated, the structured store afterwards
is exactly the store converted from the CSV rows, and any key that heads
no CSV row — including every pre-existing structured entry's key not in
the CSV — is absent afterwards. -/
theorem migration_overwrites (fs : MigFS) (rows : List (List String))
    (hcsv : fs.csv = some rows) (hall : ∀ r ∈ rows, r.length = 4) :
    ∃ st, convertRows rows [] = some st ∧
      (convertLegacyCsvFS fs).json = some st ∧
      ∀ a, (∀ r ∈ rows, List.headD r "" ≠ a) → getS st a = none := by
  obtain ⟨st, hst⟩ := convertRows_some rows [] hall
  refine ⟨st, hst, ?_, ?_⟩
  · simp [convertLegacyCsvFS, hcsv, hst]
  · intro a hhd
    rw [convertRows_absent rows [] st a hst hhd]
    rfl

/-- Witness for C5's amended theorem at the concrete state `fsBoth`. -/
theorem migration_overwrites_witness :
    ∃ st, convertRows [["2", "b", "t", "m"]] [] = some st ∧
      (convertLegacyCsvFS fsBoth).json = some st ∧
      ∀ a, (∀ r ∈ [["2", "b", "t", "m"]], List.headD r "" ≠ a) → getS st a = none :=
  migration_overwrites fsBoth [["2", "b", "t", "m"]] rfl (by simp)

/-- **C6, counterexample.** Two manifest sources declaring the same appid
with different buildids, in an environment where every directory exists
and the archiver always succeeds: with no manifest changes between runs,
the second run still produces a `backedUp` outcome. -/
theorem idempotence_cex :
    (runBackup envAll (runBackup envAll [] [acfA, acfB]).1 [acfA, acfB]).2.any
      Outcome.isBackedUp = true := by
  decide

/-- **C6 (amended).** Idempotence holds whenever no two manifest sources
parse to the same appid with different fingerprints: after one full run,
a second run over the same sources in the same environment produces no
`backedUp` outcome and leaves the persisted store identical. -/
theorem runBackup_idempotent (env : Env) (s0 : Store) (files : List String)
    (hconf : ∀ c1 c2, c1 ∈ files → c2 ∈ files → ∀ d1 d2,
      parseAcfContent c1 = Except.ok d1 → parseAcfContent c2 = Except.ok d2 →
      d1.appid = d2.appid → fpOf d1 = fpOf d2) :
    (runBackup env (runBackup env s0 files).1 files).1 = (runBackup env s0 files).1 ∧
      ∀ o ∈ (runBackup env (runBackup env s0 files).1 files).2,
        o ≠ Outcome.backedUp :=
  run_noBackup env files (runBackup env s0 files).1
    (fun c hc => run_establishes env files s0 hconf c hc)

/-- Witness for the amended C6 on a single concrete manifest. -/
theorem runBackup_idempotent_witness :
    (runBackup envAll (runBackup envAll [] [acf480]).1 [acf480]).1 =
        (runBackup envAll [] [acf480]).1 ∧
      ∀ o ∈ (runBackup envAll (runBackup envAll [] [acf480]).1 [acf480]).2,
        o ≠ Outcome.backedUp :=
  runBackup_idempotent envAll [] [acf480] (by
    intro c1 c2 hc1 hc2 d1 d2 hp1 hp2 _
    simp at hc1 hc2
    rw [hc1] at hp1
    rw [hc2] at hp2
    rw [hp1] at hp2
    rw [Except.ok.inj hp2])

/-- **C8.** Failure isolation with successful exit: on a run over three
discovered manifests whose second fails to parse (with message `e`), the
process exits 0, item 2 ends `Failed e`, and items 1 and 3 get exactly
the outcomes they would get in the run without item 2 (item 2 leaves the
store untouched, so item 3 runs from the same store either way). -/
theorem failureIsolation_exitZero (w : World) (c1 c2 c3 e : String)
    (hcfg : w.cfgOk = true) (hlib : w.steamLibraryExists = true)
    (hrar : w.winrarExists = true) (hfiles : w.acfFiles = [c1, c2, c3])
    (hp2 : parseAcfContent c2 = Except.error e) :
    mainRun w = (0,
      [(processAcfFile w.env w.initStore c1).2.1, Outcome.failed e,
        (processAcfFile w.env (processAcfFile w.env w.initStore c1).1 c3).2.1]) ∧
      (runBackup w.env w.initStore [c1, c3]).2 =
        [(processAcfFile w.env w.initStore c1).2.1,
          (processAcfFile w.env (processAcfFile w.env w.initStore c1).1 c3).2.1] := by
  have hstep2 : ∀ s, processAcfFile w.env s c2 = (s, Outcome.failed e, []) := by
    intro s; simp [processAcfFile, hp2]
  constructor
  · simp [mainRun, hcfg, hlib, hrar, hfiles, runBackup, hstep2]
  · simp [runBackup]

/-- Process-level fixture for the C8 witness: valid startup, empty store,
three discovered manifests none of which parses (the middle one is the
claim's failing item). -/
def wIso : World := ⟨true, true, true, envAll, [], ["x", "y", "z"]⟩

/-- Witness for C8 at `wIso`. -/
theorem failureIsolation_exitZero_witness :
    mainRun wIso = (0,
      [(processAcfFile wIso.env wIso.initStore "x").2.1,
        Outcome.failed "Missing appid field in ACF file",
        (processAcfFile wIso.env (processAcfFile wIso.env wIso.initStore "x").1 "z").2.1]) ∧
      (runBackup wIso.env wIso.initStore ["x", "z"]).2 =
        [(processAcfFile wIso.env wIso.initStore "x").2.1,
          (processAcfFile wIso.env (processAcfFile wIso.env wIso.initStore "x").1 "z").2.1] :=
  failureIsolation_exitZero wIso "x" "y" "z" "Missing appid field in ACF file"
    rfl rfl rfl rfl rfl

/-- **C9.** The specification's concrete scenario: a manifest parsing to
appid 480, installdir Spacewar, buildid 100, lastupdated 1700000000,
manifest 555, with no stored entry for 480, an existing install directory
and a succeeding archiver, yields `backedUp`; the archiver is invoked
exactly once with destination `[480][100][231114][555]Spacewar.rar`
under the backup directory (the date is the `%y%m%d` rendering of epoch
1700000000); and the store afterwards maps 480 to
`{buildid 100, lastupdated 1700000000, manifest 555}`. -/
theorem scenario480 (env : Env) (store : Store) (c : String)
    (hp : parseAcfContent c =
      Except.ok ⟨"480", "Spacewar", "100", "1700000000", "555"⟩)
    (habs : getS store "480" = none)
    (hdir : env.dirExists (appDir env "Spacewar") = true)
    (harc : env.archiverOk
      (env.backupDir ++ "/" ++ "[480][100][231114][555]Spacewar.rar")
      (appDir env "Spacewar") = true) :
    processAcfFile env store c =
      (putS store "480" ⟨"100", "1700000000", "555"⟩, Outcome.backedUp,
        [⟨env.backupDir ++ "/" ++ "[480][100][231114][555]Spacewar.rar",
          appDir env "Spacewar"⟩]) ∧
      getS (processAcfFile env store c).1 "480" =
        some ⟨"100", "1700000000", "555"⟩ := by
  have hcur : isBackupCurrent store ⟨"480", "Spacewar", "100", "1700000000", "555"⟩
      = false := by
    simp [isBackupCurrent, habs]
  have hts : pyInt "1700000000" = some 1700000000 := rfl
  have hdest : destOf env ⟨"480", "Spacewar", "100", "1700000000", "555"⟩ 1700000000
      = env.backupDir ++ "/" ++ "[480][100][231114][555]Spacewar.rar" := by
    show env.backupDir ++ "/" ++
        backupFilename ⟨"480", "Spacewar", "100", "1700000000", "555"⟩
          (fmtYYMMDD 1700000000) = _
    rw [show backupFilename ⟨"480", "Spacewar", "100", "1700000000", "555"⟩
      (fmtYYMMDD 1700000000) = "[480][100][231114][555]Spacewar.rar" from rfl]
  have h1 : processAcfFile env store c =
      (putS store "480" ⟨"100", "1700000000", "555"⟩, Outcome.backedUp,
        [⟨env.backupDir ++ "/" ++ "[480][100][231114][555]Spacewar.rar",
          appDir env "Spacewar"⟩]) := by
    simp [processAcfFile, hp, hcur, backupApp, hdir, hts, hdest, harc, fpOf]
  refine ⟨h1, ?_⟩
  rw [h1]
  simp [getS_putS]

/-- Witness for C9: the concrete manifest `acf480` in `envAll` from the
empty store. -/
theorem scenario480_witness :
    processAcfFile envAll [] acf480 =
      (putS [] "480" ⟨"100", "1700000000", "555"⟩, Outcome.backedUp,
        [⟨envAll.backupDir ++ "/" ++ "[480][100][231114][555]Spacewar.rar",
          appDir envAll "Spacewar"⟩]) ∧
      getS (processAcfFile envAll [] acf480).1 "480" =
        some ⟨"100", "1700000000", "555"⟩ :=
  scenario480 envAll [] acf480 rfl rfl rfl rfl

/-- **C10.** A manifest whose `lastupdated` is present but not a decimal
integer literal parses fine (the parse-success hypothesis `hp` carries
such a value, so the parser applied no semantic validation), yet once the
item is due for backup and its install directory exists, destination-path
resolution (`int(lastupdated)`) raises: the item ends `Failed`, the
archiver is never invoked (no invocation recorded), and the store is
unchanged. -/
theorem badLastupdated_failsAtResolve (env : Env) (store : Store) (c : String)
    (d : AcfData)
    (hp : parseAcfContent c = Except.ok d)
    (hbad : pyInt d.lastupdated = none)
    (hcur : isBackupCurrent store d = false)
    (hdir : env.dirExists (appDir env d.installdir) = true) :
    processAcfFile env store c =
      (store, Outcome.failed "invalid literal for int() with base 10", []) := by
  simp [processAcfFile, hp, hcur, backupApp, hdir, hbad]

/-- Witness for C10: `acfBadTs` carries `lastupdated = "notanumber"` and
still parses; processing it fails with no invocation and no store
change. -/
theorem badLastupdated_failsAtResolve_witness :
    processAcfFile envAll [] acfBadTs =
      ([], Outcome.failed "invalid literal for int() with base 10", []) :=
  badLastupdated_failsAtResolve envAll [] acfBadTs
    ⟨"7", "G", "1", "notanumber", "5"⟩ rfl rfl rfl rfl

end SteamBackup
